import Mathlib

/-!
# Verification of the sonar-analysis-query core

A shallow embedding, in Lean 4, of the pagination, value-normalization,
report-building and error-mapping core of the `sonar_report` package
(`sonar_report/client.py`, `sonar_report/reports/coverage.py`,
`sonar_report/reports/issues.py`), together with theorems settling the
frozen specification claims.

Modelling conventions:

* Python values (the payloads of parsed JSON responses) are the inductive
  type `PyVal`; Python `None` is `PyVal.none`, floats are exact rationals
  (`PyVal.num`) with the IEEE specials modelled separately in `PyFloat`.
* Python `dict`s with string keys are insertion-ordered association lists
  (`PyDict`); `dinsert` is `d[k] = v` (update in place, append when new),
  matching CPython's ordered-dict semantics, and dict displays /
  comprehensions are sequential insertion (`dictLit`).
* Fallible Python code is embedded in `Except PyExc`; the extra
  constructor `PyExc.fuelOut` is a model artifact marking exhaustion of
  the explicit bound put on the (unbounded) pagination `while` loop, not
  a Python exception.
-/

namespace SonarReport

/-- A Python/JSON value as handled by the program.  `none` is Python
`None` (also the JSON null); `num` is a Python float, modelled as the
exact rational it denotes. -/
inductive PyVal where
  | none : PyVal
  | bool (b : Bool) : PyVal
  | int (n : ℤ) : PyVal
  | num (q : ℚ) : PyVal
  | str (s : String) : PyVal
  | list (l : List PyVal) : PyVal
  | dict (d : List (String × PyVal)) : PyVal

/-- A Python `dict` with string keys: an insertion-ordered association
list whose keys are unique (uniqueness is stated as a hypothesis where a
theorem needs it). -/
abbrev PyDict := List (String × PyVal)

/-- The Python exceptions the embedded code can raise, plus the model
artifact `fuelOut` (exhaustion of the explicit bound on the pagination
loop — not a Python exception). -/
inductive PyExc where
  | keyError : PyExc
  | typeError : PyExc
  | valueError : PyExc
  | attributeError : PyExc
  | overflowError : PyExc
  | fuelOut : PyExc
  deriving DecidableEq

/-- `d.get(k)` restricted to key presence: `some v` when `k` is bound
(first binding wins; bindings are unique in a real dict). -/
def dlookup (d : PyDict) (k : String) : Option PyVal :=
  match d with
  | [] => Option.none
  | (k', v) :: rest => if k' = k then some v else dlookup rest k

/-- Python `d.get(k)`: the bound value, or `None` when absent. -/
def pyGet (d : PyDict) (k : String) : PyVal :=
  (dlookup d k).getD .none

/-- Python `d.get(k, default)`. -/
def pyGetD (d : PyDict) (k : String) (default : PyVal) : PyVal :=
  (dlookup d k).getD default

/-- Python `k in d`. -/
def hasKey (d : PyDict) (k : String) : Bool :=
  (dlookup d k).isSome

/-- The keys of a dict, in insertion order. -/
def keys (d : PyDict) : List String :=
  d.map Prod.fst

/-- Python `d[k] = v` on an ordered dict: replace the value at the
existing position when `k` is already bound, append otherwise. -/
def dinsert (d : PyDict) (k : String) (v : PyVal) : PyDict :=
  match d with
  | [] => [(k, v)]
  | (k', v') :: rest =>
      if k' = k then (k', v) :: rest else (k', v') :: dinsert rest k v

/-- A Python dict display / comprehension: sequential insertion of the
listed pairs into an initially empty dict. -/
def dictLit (ps : List (String × PyVal)) : PyDict :=
  ps.foldl (fun d p => dinsert d p.1 p.2) []

/-! ## Pagination core (`sonar_report/client.py`, `SonarClient.get_paginated`) -/

/-- `PAGE_SIZE` from `client.py`. -/
def PAGE_SIZE : ℕ := 500

/-- `PAGINATION_WARNING_THRESHOLD` from `client.py`. -/
def PAGINATION_WARNING_THRESHOLD : ℕ := 10000

/-- The `"paging"` object of a response: an optional `"total"` field. -/
structure Paging where
  total : Option ℕ
  deriving DecidableEq

/-- One page response, as `get_paginated` reads it: the value under the
caller's `results_key` (`Option.none` when the key is absent) and the
optional `"paging"` object.  Items are left abstract in `α`. -/
structure PageResponse (α : Type) where
  results : Option (List α)
  paging : Option Paging

/-- What one call of `get_paginated` produced: the accumulated results,
the query parameters of every request issued (in order), and a log with
one entry `(page, accumulated-count)` per emitted pagination warning. -/
structure FetchResult (α : Type) where
  results : List α
  requests : List PyDict
  warnLog : List (ℕ × ℕ)

/-- `page_params = {**params, "ps": PAGE_SIZE, "p": page}`. -/
def pageParams (params : PyDict) (page : ℕ) : PyDict :=
  dinsert (dinsert params "ps" (.int PAGE_SIZE)) "p" (.int page)

/-- The body of `get_paginated`'s `while True` loop.  The backend is a
function from the merged query parameters to the page response; `fuel`
bounds the number of iterations (the Python loop is unbounded) and
`Option.none` means the bound was exhausted.  State threaded through the
loop: current `page`, accumulator `acc` (`all_results`), the
`_warning_emitted` flag, and the request/warning logs. -/
def getPaginatedGo {α : Type} (backend : PyDict → PageResponse α) (params : PyDict) :
    ℕ → ℕ → List α → Bool → List PyDict → List (ℕ × ℕ) → Option (FetchResult α)
  | 0, _, _, _, _, _ => Option.none
  | fuel + 1, page, acc, warned, reqs, log =>
      let pp := pageParams params page
      let data := backend pp
      -- results = data.get(results_key, [])
      let results := data.results.getD []
      -- all_results.extend(results)
      let acc' := acc ++ results
      -- paging = data.get("paging", {}); total = paging.get("total", len(all_results))
      let total := (data.paging.bind Paging.total).getD acc'.length
      -- if total > PAGINATION_WARNING_THRESHOLD and not _warning_emitted: warn
      let warned' := warned || decide (total > PAGINATION_WARNING_THRESHOLD)
      let log' :=
        if total > PAGINATION_WARNING_THRESHOLD ∧ warned = false then
          log ++ [(page, acc'.length)]
        else log
      -- if len(all_results) >= total or not results: break
      if acc'.length ≥ total ∨ results.isEmpty then
        some ⟨acc', reqs ++ [pp], log'⟩
      else
        getPaginatedGo backend params fuel (page + 1) acc' warned' (reqs ++ [pp]) log'

/-- `SonarClient.get_paginated`: run the loop from page 1 with an empty
accumulator and the warning flag cleared. -/
def getPaginated {α : Type} (backend : PyDict → PageResponse α) (params : PyDict)
    (fuel : ℕ) : Option (FetchResult α) :=
  getPaginatedGo backend params fuel 1 [] false [] []

/-- A backend serving a fixed list `L` in slices of 500 (page `p` serves
`L[500*(p-1) : 500*p]`), declaring `total = 1250` on every page: the
scenario of the three-page pagination claim. -/
def slicedBackend {α : Type} (L : List α) (req : PyDict) : PageResponse α :=
  match dlookup req "p" with
  | some (.int p) =>
      ⟨some ((L.drop (500 * (p - 1).toNat)).take 500), some ⟨some 1250⟩⟩
  | _ => ⟨some [], some ⟨some 1250⟩⟩

/-- A backend for the warning-timing counterexample: page 1 serves three
items and declares `total = 10001`; every later page is empty and
declares the same total. -/
def c2Backend (req : PyDict) : PageResponse ℕ :=
  match dlookup req "p" with
  | some (.int 1) => ⟨some [0, 1, 2], some ⟨some 10001⟩⟩
  | _ => ⟨some [], some ⟨some 10001⟩⟩

/-! ## Value normalization (`sonar_report/reports/coverage.py`) -/

/-- A Python float value: an exact rational, or one of the special
values `float("inf")`, `float("-inf")`, `float("nan")`. -/
inductive PyFloat where
  | rat (q : ℚ) : PyFloat
  | inf : PyFloat
  | ninf : PyFloat
  | nan : PyFloat
  deriving DecidableEq

/-- Numeric value of a digit string (most significant digit first). -/
def digitsVal (l : List Char) : ℕ :=
  l.foldl (fun a c => a * 10 + (c.toNat - 48)) 0

/-- Parse an unsigned plain decimal literal: digit characters with at
most one dot, at least one digit overall (accepting "88", "88.0", ".5",
"1."). -/
def parseUnsignedDec (l : List Char) : Option ℚ :=
  match l.splitOn '.' with
  | [ip] =>
      if ip ≠ [] ∧ ip.all Char.isDigit then some (digitsVal ip) else Option.none
  | [ip, fp] =>
      if ip ++ fp ≠ [] ∧ (ip ++ fp).all Char.isDigit then
        some ((digitsVal ip : ℚ) + (digitsVal fp : ℚ) / (10 : ℚ) ^ fp.length)
      else Option.none
  | _ => Option.none

/-- Python `float(s)` on a string: `some` of the parsed value, `none`
when the parse fails (Python raises `ValueError`).  Modelled for
optionally signed plain decimal literals and the lowercase special
spellings `inf` / `infinity` / `nan`; exponent notation, underscores,
surrounding whitespace and case variants are outside the model. -/
def pyFloatOfString (s : String) : Option PyFloat :=
  if s = "inf" ∨ s = "+inf" ∨ s = "infinity" ∨ s = "+infinity" then some .inf
  else if s = "-inf" ∨ s = "-infinity" then some .ninf
  else if s = "nan" ∨ s = "+nan" ∨ s = "-nan" then some .nan
  else
    match s.toList with
    | '-' :: rest => (parseUnsignedDec rest).map (fun q => .rat (-q))
    | '+' :: rest => (parseUnsignedDec rest).map .rat
    | l => (parseUnsignedDec l).map .rat

/-- Python `float(val)` on an arbitrary value: numbers and booleans
convert, strings parse (`ValueError` on failure), and everything else
(`None`, lists, dicts) raises `TypeError`. -/
def pyFloatOf (v : PyVal) : Except PyExc PyFloat :=
  match v with
  | .str s =>
      match pyFloatOfString s with
      | some f => .ok f
      | Option.none => .error .valueError
  | .int n => .ok (.rat n)
  | .num q => .ok (.rat q)
  | .bool b => .ok (.rat (if b then 1 else 0))
  | _ => .error .typeError

/-- `_parse_value`, lines 52–57: `val = raw.get("value")`; if that is
`None`, fall back to `period.get("value")` when `raw.get("period")` is a
dict, else `None`. -/
def extractVal (raw : PyDict) : PyVal :=
  match pyGet raw "value" with
  | .none =>
      match pyGet raw "period" with
      | .dict d => pyGet d "value"
      | _ => .none
  | v => v

/-- The `try` body of `_parse_value` (lines 58–61): `f = float(val)`,
then `int(f) if f == int(f) else f`.  For a finite float `q`,
`f == int(f)` holds exactly when `q` is a whole number, i.e. `q.den = 1`,
and then `int(f) = q.num`; `int()` of ±infinity raises `OverflowError`
and `int()` of nan raises `ValueError`. -/
def parseTry (v : PyVal) : Except PyExc PyVal := do
  let f ← pyFloatOf v
  match f with
  | .rat q => pure (if q.den = 1 then PyVal.int q.num else PyVal.num q)
  | .inf | .ninf => throw .overflowError
  | .nan => throw .valueError

/-- `_parse_value` (`reports/coverage.py`, lines 45–63).  The
`except (ValueError, TypeError)` clause returns the raw value unchanged;
any other exception — notably the `OverflowError` coming from
`int(float("inf"))` — propagates to the caller. -/
def parseValue (raw : PyDict) : Except PyExc PyVal :=
  match extractVal raw with
  | .none => .ok .none
  | v =>
      match parseTry v with
      | .ok r => .ok r
      | .error e => if e = .valueError ∨ e = .typeError then .ok v else .error e

/-- `_measures_to_dict`: `{m["metric"]: _parse_value(m) for m in measures}`.
Indexing a non-dict raises `TypeError`; a missing `"metric"` key raises
`KeyError`; a non-string metric name is outside the string-keyed dict
model and is also mapped to `TypeError`. -/
def measuresToDict (ms : List PyVal) : Except PyExc PyDict :=
  ms.foldlM (fun acc m =>
    match m with
    | .dict md =>
        match dlookup md "metric" with
        | some (.str s) => do
            let v ← parseValue md
            pure (dinsert acc s v)
        | some _ => .error .typeError
        | Option.none => .error .keyError
    | _ => .error .typeError) []

/-- Python `s.startswith(pre)` (by characters). -/
def strStartsWith (s pre : String) : Bool :=
  pre.data.isPrefixOf s.data

/-- Python string slicing `s[n:]` (by characters). -/
def strDrop (s : String) (n : ℕ) : String :=
  String.mk (s.data.drop n)

/-- The key rewrite performed by `_strip_new_prefix` on each key:
`k[4:] if k.startswith("new_") else k`. -/
def stripKey (k : String) : String :=
  if strStartsWith k "new_" then strDrop k 4 else k

/-- `_strip_new_prefix` (lines 71–73): the dict comprehension
`{(k[4:] if k.startswith("new_") else k): v for k, v in d.items()}`. -/
def stripNewPrefix (d : PyDict) : PyDict :=
  dictLit (d.map (fun p => (stripKey p.1, p.2)))

/-! ## Coverage report builders (`sonar_report/reports/coverage.py`) -/

/-- `_BRANCH_METRICS`. -/
def BRANCH_METRICS : List String :=
  ["coverage", "line_coverage", "branch_coverage", "lines_to_cover",
   "uncovered_lines", "uncovered_conditions", "conditions_to_cover"]

/-- `_NEW_CODE_METRICS`. -/
def NEW_CODE_METRICS : List String :=
  ["new_coverage", "new_line_coverage", "new_branch_coverage",
   "new_lines_to_cover", "new_uncovered_lines", "new_uncovered_conditions",
   "new_conditions_to_cover"]

/-- `{k: measures.get(k) for k in ks}` (lines 98–99 and 126). -/
def sectionOf (ks : List String) (measures : PyDict) : PyDict :=
  dictLit (ks.map (fun k => (k, pyGet measures k)))

/-- `data.get("component", {}).get("measures", [])`, with the Python
error behavior at ill-typed intermediates: `.get` on a non-dict
`component` raises `AttributeError`, and iterating a non-list
`measures` raises `TypeError` (iterable non-list values are outside the
model). -/
def componentMeasures (data : PyDict) : Except PyExc (List PyVal) :=
  match dlookup data "component" with
  | Option.none => .ok []
  | some (.dict c) =>
      match dlookup c "measures" with
      | Option.none => .ok []
      | some (.list l) => .ok l
      | some _ => .error .typeError
  | some _ => .error .attributeError

/-- `get_coverage` (F4), given the parsed response `data` of the one
`/api/measures/component` request (the network call itself is the
transport wrapper's concern) and the assembly-time timestamp. -/
def getCoverage (data : PyDict) (projectKey branch generatedAt : String) :
    Except PyExc PyDict := do
  let ms ← componentMeasures data
  let measures ← measuresToDict ms
  let current := sectionOf BRANCH_METRICS measures
  let newRaw := sectionOf NEW_CODE_METRICS measures
  let newCode := stripNewPrefix newRaw
  pure (dictLit
    [("report_type", .str "coverage"), ("project_key", .str projectKey),
     ("branch", .str branch), ("generated_at", .str generatedAt),
     ("metrics", .dict current), ("new_code", .dict newCode)])

/-- `get_pr_coverage` (F5), given the parsed response `data` of the one
`/api/measures/component` request. -/
def getPrCoverage (data : PyDict) (projectKey prId generatedAt : String) :
    Except PyExc PyDict := do
  let ms ← componentMeasures data
  let measures ← measuresToDict ms
  let newRaw := sectionOf NEW_CODE_METRICS measures
  let newCode := stripNewPrefix newRaw
  pure (dictLit
    [("report_type", .str "pr_coverage"), ("project_key", .str projectKey),
     ("pull_request", .str prId), ("generated_at", .str generatedAt),
     ("new_code", .dict newCode)])

/-! ## Issue report builders (`sonar_report/reports/issues.py`) -/

/-- `_ISSUE_FIELDS`. -/
def ISSUE_FIELDS : List String :=
  ["key", "rule", "severity", "type", "component", "line",
   "message", "effort", "status", "assignee", "tags", "creationDate"]

/-- `_SEVERITIES`. -/
def SEVERITIES : List String :=
  ["BLOCKER", "CRITICAL", "MAJOR", "MINOR", "INFO"]

/-- `_TYPES`. -/
def TYPES : List String := ["BUG", "VULNERABILITY", "CODE_SMELL"]

/-- `_extract_issue`: `{field: raw.get(field) for field in _ISSUE_FIELDS}`. -/
def extractIssue (raw : PyDict) : PyDict :=
  dictLit (ISSUE_FIELDS.map (fun f => (f, pyGet raw f)))

/-- `{s: 0 for s in cats}` — the initial counter dicts of
`_build_summary`. -/
def initCounts (cats : List String) : PyDict :=
  dictLit (cats.map (fun c => (c, .int 0)))

/-- One counting step of `_build_summary`: `if v in d: d[v] += 1`.  A
non-string candidate is never a key of the counter dict. -/
def bumpCount (d : PyDict) (v : PyVal) : PyDict :=
  match v with
  | .str s =>
      if hasKey d s then
        match dlookup d s with
        | some (.int n) => dinsert d s (.int (n + 1))
        | _ => d
      else d
  | _ => d

/-- `_build_summary`: one pass over the issues bumping both counters,
then the summary dict. -/
def buildSummary (issues : List PyDict) : PyDict :=
  let counts := issues.foldl
    (fun p i => (bumpCount p.1 (pyGet i "severity"), bumpCount p.2 (pyGet i "type")))
    (initCounts SEVERITIES, initCounts TYPES)
  dictLit
    [("total", .int (issues.length : ℤ)),
     ("by_severity", .dict counts.1), ("by_type", .dict counts.2)]

/-- `_build_report`, given the already-fetched raw issues and the
assembly-time timestamp; `extra` is the caller's extra section
(`{"pull_request": pr_id}` or `{"branch": branch}`), spliced with `**`
between `generated_at` and `summary` exactly as in the source. -/
def buildReport (reportType projectKey generatedAt : String) (extra : PyDict)
    (issues : List PyDict) : PyDict :=
  let cleaned := issues.map extractIssue
  dictLit
    ([("report_type", .str reportType), ("project_key", .str projectKey),
      ("generated_at", .str generatedAt)] ++ extra ++
     [("summary", .dict (buildSummary cleaned)),
      ("issues", .list (cleaned.map .dict))])

/-! ## Transport wrapper (`sonar_report/client.py`, `SonarClient._request`) -/

/-- The transport-level outcome of `self._session.get(...)`: a timeout,
a connection failure, or an HTTP response with a status code, a text
body and a parsed JSON body. -/
inductive HttpOutcome where
  | timeout : HttpOutcome
  | connectionError : HttpOutcome
  | response (status : ℕ) (body : String) (json : PyVal) : HttpOutcome

/-- The client error taxonomy of `client.py`: `AuthenticationError`,
`NotFoundError`, `NetworkError`, and the base `SonarClientError` used
for other non-OK statuses. -/
inductive ClientError where
  | authenticationError (msg : String) : ClientError
  | notFoundError (msg : String) : ClientError
  | networkError (msg : String) : ClientError
  | sonarClientError (msg : String) : ClientError
  deriving DecidableEq

/-- Python string slicing `s[:n]` (by characters). -/
def strTake (s : String) (n : ℕ) : String :=
  String.mk (s.data.take n)

/-- The 401 message (line 139). -/
def authFailedMessage : String :=
  "Authentication failed — check that your token is valid and not expired."

/-- The timeout message (line 130; the quotes around the URL are
omitted — plain-text content only). -/
def timeoutMessage (t : ℕ) (url : String) : String :=
  s!"Request timed out after {t}s while contacting {url}"

/-- The connection-failure message (line 134). -/
def unreachableMessage (baseUrl : String) : String :=
  s!"Unable to reach SonarQube server at {baseUrl}"

/-- The 404 message (line 143). -/
def notFoundMessage (url : String) : String :=
  s!"Resource not found: {url}"

/-- The generic non-OK message (line 147), carrying the status code and
the 200-character body excerpt. -/
def unexpectedMessage (status : ℕ) (url : String) (excerpt : String) : String :=
  s!"Unexpected response {status} from {url}: {excerpt}"

/-- `SonarClient._request` (lines 124–150) as a function of the
transport outcome.  `response.ok` in the `requests` library is
`status < 400`, so 1xx and 3xx responses take the OK path. -/
def requestResult (timeoutS : ℕ) (baseUrl url : String) (o : HttpOutcome) :
    Except ClientError PyVal :=
  match o with
  | .timeout => .error (.networkError (timeoutMessage timeoutS url))
  | .connectionError => .error (.networkError (unreachableMessage baseUrl))
  | .response status body json =>
      if status = 401 then .error (.authenticationError authFailedMessage)
      else if status = 404 then .error (.notFoundError (notFoundMessage url))
      else if ¬(status < 400) then
        .error (.sonarClientError (unexpectedMessage status url (strTake body 200)))
      else .ok json

/-! ## Uncovered-lines report (`sonar_report/reports/coverage.py`,
`get_uncovered_lines` and its private helpers) -/

/-- One character step of the `_strip_html` scanner.  State: the output
so far plus, when a `<` has been seen and not yet resolved, the
characters read since that `<`.  This is an equivalent one-pass
formulation of `re.sub(r"<[^>]+>", "", text)`: `[^>]` cannot cross a
`>`, so a match always runs from a `<` to the first following `>` and
needs at least one character in between; an immediately closed `<>`
and an unclosed trailing `<...` are not matches and are kept. -/
def stripHtmlStep (st : List Char × Option (List Char)) (c : Char) :
    List Char × Option (List Char) :=
  match st with
  | (out, Option.none) =>
      if c = '<' then (out, some []) else (out ++ [c], Option.none)
  | (out, some buf) =>
      if c = '>' then
        if buf.isEmpty then (out ++ '<' :: buf ++ ['>'], Option.none)
        else (out, Option.none)
      else (out, some (buf ++ [c]))

/-- `_strip_html`: remove every `<[^>]+>` tag. -/
def stripHtml (s : String) : String :=
  match s.data.foldl stripHtmlStep ([], Option.none) with
  | (out, Option.none) => String.mk out
  | (out, some buf) => String.mk (out ++ '<' :: buf)

/-- Python `int(f)`: truncation toward zero of a finite float. -/
def intOfRat (q : ℚ) : ℤ :=
  q.num.tdiv (q.den : ℤ)

/-- The scan of `_component_metric` over the `measures` list: find the
entry whose `"metric"` equals the requested key and return
`int(float(m["value"]))`; the `except (KeyError, ValueError)` around
that conversion turns a missing `"value"`, an unparsable string and
`int(nan)` into 0, while `TypeError` (non-number value) and
`OverflowError` (`int(±inf)`) propagate; 0 when no entry matches. -/
def componentMetricGo (metric : String) : List PyVal → Except PyExc ℤ
  | [] => .ok 0
  | m :: rest =>
      match m with
      | .dict md =>
          match dlookup md "metric" with
          | Option.none => .error .keyError
          | some (.str s) =>
              if s = metric then
                match dlookup md "value" with
                | Option.none => .ok 0
                | some v =>
                    match pyFloatOf v with
                    | .error .valueError => .ok 0
                    | .error e => .error e
                    | .ok (.rat q) => .ok (intOfRat q)
                    | .ok .nan => .ok 0
                    | .ok .inf => .error .overflowError
                    | .ok .ninf => .error .overflowError
              else componentMetricGo metric rest
          | some _ => componentMetricGo metric rest
      | _ => .error .typeError

/-- `_component_metric(comp, metric)`. -/
def componentMetric (comp : PyDict) (metric : String) : Except PyExc ℤ :=
  match dlookup comp "measures" with
  | Option.none => componentMetricGo metric []
  | some (.list l) => componentMetricGo metric l
  | some _ => .error .typeError

/-- `_component_uncovered_count(c)`; `.get` on a non-dict component
raises `AttributeError`. -/
def componentUncoveredCount (c : PyVal) : Except PyExc ℤ :=
  match c with
  | .dict cd => componentMetric cd "uncovered_lines"
  | _ => .error .attributeError

/-- The filter `[c for c in components if _component_uncovered_count(c) > 0]`. -/
def filterUncovered : List PyVal → Except PyExc (List PyVal)
  | [] => .ok []
  | c :: rest => do
      let n ← componentUncoveredCount c
      let rest' ← filterUncovered rest
      pure (if n > 0 then c :: rest' else rest')

/-- Python `x == 0` on the hit-count values (in Python `0 == 0.0` and
`0 == False` both hold). -/
def pyEqZero (v : PyVal) : Bool :=
  match v with
  | .int n => n == 0
  | .num q => q == 0
  | .bool b => !b
  | _ => false

/-- The line-filtering comprehension of `get_uncovered_lines` (lines
188–195): keep the lines whose `utLineHits` or `lineHits` equals 0, as
`{"line": ln["line"], "code": _strip_html(ln.get("code", ""))}`. -/
def uncoveredOfLines : List PyVal → Except PyExc (List PyDict)
  | [] => .ok []
  | ln :: rest =>
      match ln with
      | .dict ld =>
          if pyEqZero (pyGet ld "utLineHits") || pyEqZero (pyGet ld "lineHits") then
            match dlookup ld "line" with
            | Option.none => .error .keyError
            | some lv =>
                match pyGetD ld "code" (.str "") with
                | .str code => do
                    let rest' ← uncoveredOfLines rest
                    pure ([("line", lv), ("code", .str (stripHtml code))] :: rest')
                | _ => .error .typeError
          else uncoveredOfLines rest
      | _ => .error .attributeError

/-- The file entry appended for a component with uncovered lines
(lines 198–204). -/
def fileEntry (cd : PyDict) (keyV : PyVal) (ltc ulc : ℤ)
    (uncovered : List PyDict) : PyDict :=
  dictLit
    [("path", pyGetD cd "path" keyV), ("component", keyV),
     ("lines_to_cover", .int ltc),
     ("uncovered_lines_count", .int ulc),
     ("uncovered_lines", .list (uncovered.map .dict))]

/-- The entry built for one component when its filtered uncovered lines
are nonempty (`if uncovered:`), propagating the `_component_metric`
exceptions; `none` when the file is skipped. -/
def fileEntry? (cd : PyDict) (keyV : PyVal) (uncovered : List PyDict) :
    Except PyExc (Option PyDict) :=
  if uncovered.isEmpty then .ok Option.none
  else
    match componentMetric cd "lines_to_cover" with
    | .error e => .error e
    | .ok ltc =>
        match componentMetric cd "uncovered_lines" with
        | .error e => .error e
        | .ok ulc => .ok (some (fileEntry cd keyV ltc ulc uncovered))

/-- `src_data.get("sources", [])` with the usual iteration typing. -/
def sourcesOf (srcData : PyDict) : Except PyExc (List PyVal) :=
  match dlookup srcData "sources" with
  | Option.none => .ok []
  | some (.list l) => .ok l
  | some _ => .error .typeError

/-- The per-file loop of `get_uncovered_lines` (lines 182–204): for each
retained component, build `lines_params = {"key": comp["key"],
**location}`, query the lines backend, filter the uncovered lines, and
append a file entry when any remain.  Returns the file entries and the
lines requests issued, both in order. -/
def uncoveredFilesGo (linesBackend : PyDict → PyDict) (location : PyDict) :
    List PyVal → Except PyExc (List PyDict × List PyDict)
  | [] => .ok ([], [])
  | comp :: rest =>
      match comp with
      | .dict cd =>
          match dlookup cd "key" with
          | Option.none => .error .keyError
          | some keyV =>
              let linesParams := dictLit ([("key", keyV)] ++ location)
              let srcData := linesBackend linesParams
              match sourcesOf srcData with
              | .error e => .error e
              | .ok rawLines =>
                  match uncoveredOfLines rawLines with
                  | .error e => .error e
                  | .ok uncovered =>
                      match fileEntry? cd keyV uncovered with
                      | .error e => .error e
                      | .ok entry? =>
                          match uncoveredFilesGo linesBackend location rest with
                          | .error e => .error e
                          | .ok (files, reqs) =>
                              .ok (entry?.toList ++ files, linesParams :: reqs)
      | _ => .error .typeError

/-- `sum(f[field] for f in files)` over int-valued fields. -/
def sumIntField (files : List PyDict) (field : String) : Except PyExc ℤ :=
  files.foldlM (fun a f =>
    match dlookup f field with
    | some (.int n) => .ok (a + n)
    | some _ => .error .typeError
    | Option.none => .error .keyError) 0

/-- Python truthiness of the `str | None` arguments: `None` and `""` are
falsy. -/
def truthy : Option String → Bool
  | Option.none => false
  | some s => !(s == "")

/-- The underlying string of a `str | None` argument. -/
def strOf : Option String → String
  | Option.none => ""
  | some s => s

/-- `get_uncovered_lines` (F6).  `treeBackend` answers the paginated
`/api/measures/component_tree` requests and `linesBackend` the
`/api/sources/lines` requests; `fuel` bounds the pagination loop and
`generatedAt` stands for the assembly-time timestamp.  Returns the
report together with every query-parameter dict sent, in order. -/
def getUncoveredLines (treeBackend : PyDict → PageResponse PyVal)
    (linesBackend : PyDict → PyDict) (fuel : ℕ) (projectKey : String)
    (branch prId : Option String) (generatedAt : String) :
    Except PyExc (PyDict × List PyDict) :=
  if !truthy branch && !truthy prId then .error .valueError
  else
    let location : PyDict :=
      if truthy prId then [("pullRequest", .str (strOf prId))]
      else [("branch", .str (strOf branch))]
    let treeParams := dictLit
      ([("component", .str projectKey),
        ("metricKeys", .str "lines_to_cover,uncovered_lines"),
        ("qualifiers", .str "FIL"), ("ps", .int 500)] ++ location)
    match getPaginated treeBackend treeParams fuel with
    | Option.none => .error .fuelOut
    | some fetched => do
        let uncoveredFiles ← filterUncovered fetched.results
        let (filesReport, linesReqs) ← uncoveredFilesGo linesBackend location uncoveredFiles
        let totalToCover ← sumIntField filesReport "lines_to_cover"
        let totalUncovered ← sumIntField filesReport "uncovered_lines_count"
        let summary := dictLit
          [("files_with_uncovered_lines", .int (filesReport.length : ℤ)),
           ("total_lines_to_cover", .int totalToCover),
           ("total_uncovered_lines", .int totalUncovered)]
        let report := dictLit
          [("report_type", .str "uncovered_lines"),
           ("project_key", .str projectKey),
           ("generated_at", .str generatedAt),
           ("summary", .dict summary),
           ("files", .list (filesReport.map .dict))]
        let report' :=
          if truthy prId then dinsert report "pull_request" (.str (strOf prId))
          else dinsert report "branch" (.str (strOf branch))
        pure (report', fetched.requests ++ linesReqs)

/-! ## Association-list (ordered-dict) lemmas -/

@[simp] theorem dlookup_nil (k : String) : dlookup [] k = Option.none := rfl

@[simp] theorem dlookup_cons (k' k : String) (v : PyVal) (d : PyDict) :
    dlookup ((k', v) :: d) k = if k' = k then some v else dlookup d k := rfl

@[simp] theorem dinsert_nil (k : String) (v : PyVal) : dinsert [] k v = [(k, v)] := rfl

theorem dinsert_cons (k' k : String) (v' v : PyVal) (d : PyDict) :
    dinsert ((k', v') :: d) k v =
      if k' = k then (k', v) :: d else (k', v') :: dinsert d k v := rfl

/-- Looking up the key just inserted yields the inserted value. -/
@[simp] theorem dlookup_dinsert_self (d : PyDict) (k : String) (v : PyVal) :
    dlookup (dinsert d k v) k = some v := by
  induction d with
  | nil => simp [dinsert]
  | cons p rest ih =>
      obtain ⟨k', v'⟩ := p
      by_cases h : k' = k <;> simp [dinsert, h, ih]

/-- Inserting one key does not change lookups of other keys. -/
theorem dlookup_dinsert_ne (d : PyDict) (k k' : String) (v : PyVal) (h : k' ≠ k) :
    dlookup (dinsert d k v) k' = dlookup d k' := by
  induction d with
  | nil => simp [dinsert, Ne.symm h]
  | cons p rest ih =>
      obtain ⟨k₀, v₀⟩ := p
      by_cases h₀ : k₀ = k
      · subst h₀
        simp [dinsert, Ne.symm h]
      · simp only [dinsert, if_neg h₀, dlookup_cons]
        by_cases h₁ : k₀ = k' <;> simp [h₁, ih]

/-- Inserting a key that is not yet bound appends the pair. -/
theorem dinsert_of_not_mem (d : PyDict) (k : String) (v : PyVal)
    (h : k ∉ keys d) : dinsert d k v = d ++ [(k, v)] := by
  induction d with
  | nil => rfl
  | cons p rest ih =>
      obtain ⟨k', v'⟩ := p
      simp only [keys, List.map_cons, List.mem_cons] at h
      push_neg at h
      simp [dinsert, Ne.symm h.1, ih h.2]

theorem keys_dinsert_of_not_mem (d : PyDict) (k : String) (v : PyVal)
    (h : k ∉ keys d) : keys (dinsert d k v) = keys d ++ [k] := by
  rw [dinsert_of_not_mem d k v h]; simp [keys]

/-- Sequentially inserting pairs whose keys are fresh (pairwise distinct
and absent from the accumulator) just appends them. -/
theorem foldl_dinsert_eq_append (ps : List (String × PyVal)) (acc : PyDict)
    (h : (keys acc ++ ps.map Prod.fst).Nodup) :
    ps.foldl (fun d p => dinsert d p.1 p.2) acc = acc ++ ps := by
  induction ps generalizing acc with
  | nil => simp
  | cons p rest ih =>
      obtain ⟨k, v⟩ := p
      have hnotin : k ∉ keys acc := by
        intro hk
        exact (List.disjoint_of_nodup_append h) hk (by simp)
      have hstep : dinsert acc k v = acc ++ [(k, v)] := dinsert_of_not_mem acc k v hnotin
      have h' : (keys (acc ++ [(k, v)]) ++ rest.map Prod.fst).Nodup := by
        simp only [keys, List.map_append, List.map_cons, List.map_nil] at h ⊢
        simpa [List.append_assoc] using h
      simp only [List.foldl_cons, hstep, ih _ h']
      simp

/-- `dictLit` on pairs with pairwise-distinct keys is the list itself. -/
theorem dictLit_eq_self (ps : List (String × PyVal)) (h : (ps.map Prod.fst).Nodup) :
    dictLit ps = ps := by
  simpa [dictLit, keys] using foldl_dinsert_eq_append ps [] (by simpa [keys] using h)

/-- In a dict with unique keys, a listed binding is what lookup returns. -/
theorem dlookup_eq_of_mem (d : PyDict) (k : String) (v : PyVal)
    (hnd : (keys d).Nodup) (hmem : (k, v) ∈ d) : dlookup d k = some v := by
  induction d with
  | nil => simp at hmem
  | cons p rest ih =>
      obtain ⟨k', v'⟩ := p
      simp only [keys, List.map_cons, List.nodup_cons] at hnd
      rcases List.mem_cons.mp hmem with h | h
      · injection h with h1 h2
        subst h1; subst h2
        simp
      · have hk : k' ≠ k := by
          intro he
          exact hnd.1 (by rw [he]; exact List.mem_map_of_mem Prod.fst h)
        simp [hk, ih hnd.2 h]

/-! ## Pagination theorems -/

/-- **C1.**  For a paginated fetch in which the backend declares
`total = 1250` and serves pages of 500, 500 and 250 items (any list `L`
of 1250 records, served in slices), `get_paginated` returns exactly the
1250 records in backend order — `L` itself, page 1's slice before page
2's, with no reordering — issuing exactly the 3 requests
`{**params, "ps": 500, "p": page}` for pages 1, 2, 3; the merged query
parameters of page `p` carry `"ps" = 500` and `"p" = p`. -/
theorem getPaginated_three_pages_ordered {α : Type} (L : List α) (params : PyDict)
    (k : ℕ) (hL : L.length = 1250) :
    getPaginated (slicedBackend L) params (k + 3) =
      some ⟨L, [pageParams params 1, pageParams params 2, pageParams params 3], []⟩ ∧
    ∀ p : ℕ, dlookup (pageParams params p) "ps" = some (.int 500) ∧
             dlookup (pageParams params p) "p" = some (.int p) := by
  constructor
  · have hb : ∀ p : ℕ, slicedBackend L (pageParams params p) =
        ⟨some ((L.drop (500 * ((p : ℤ) - 1).toNat)).take 500), some ⟨some 1250⟩⟩ := by
      intro p
      simp [slicedBackend, pageParams, dlookup_dinsert_self]
    have hne : L ≠ [] := by
      intro h; rw [h] at hL; simp at hL
    have s1 : getPaginatedGo (slicedBackend L) params (k + 2 + 1) 1 [] false [] [] =
        getPaginatedGo (slicedBackend L) params (k + 2) 2 (L.take 500) false
          [pageParams params 1] [] := by
      rw [getPaginatedGo]
      simp only [hb]
      norm_num [hL, PAGINATION_WARNING_THRESHOLD, List.isEmpty_iff,
        List.take_eq_nil_iff, hne]
    have s2 : getPaginatedGo (slicedBackend L) params (k + 1 + 1) 2 (L.take 500) false
        [pageParams params 1] [] =
        getPaginatedGo (slicedBackend L) params (k + 1) 3 (L.take 1000) false
          [pageParams params 1, pageParams params 2] [] := by
      rw [getPaginatedGo]
      simp only [hb]
      have hd : L.drop 500 ≠ [] := by
        intro h
        have := congrArg List.length h
        simp [hL] at this
      have ht : L.take 1000 = L.take 500 ++ (L.drop 500).take 500 := by
        rw [← List.take_add]
      norm_num [hL, PAGINATION_WARNING_THRESHOLD, List.isEmpty_iff,
        List.take_eq_nil_iff, hd, ← ht]
    have s3 : getPaginatedGo (slicedBackend L) params (k + 1) 3 (L.take 1000) false
        [pageParams params 1, pageParams params 2] [] =
        some ⟨L, [pageParams params 1, pageParams params 2, pageParams params 3], []⟩ := by
      rw [show k + 1 = k + 1 from rfl, getPaginatedGo]
      simp only [hb]
      have h2 : Int.toNat 2 = 2 := rfl
      have hlen : (L.drop 1000).length ≤ 500 := by simp [hL]
      have htk : (L.drop 1000).take 500 = L.drop 1000 := List.take_of_length_le hlen
      norm_num [h2, htk, List.take_append_drop, hL, PAGINATION_WARNING_THRESHOLD]
    rw [getPaginated]
    rw [show k + 3 = k + 2 + 1 from rfl]
    rw [s1, show k + 2 = k + 1 + 1 from rfl, s2, s3]
  · intro p
    refine ⟨?_, ?_⟩
    · rw [pageParams, dlookup_dinsert_ne _ _ _ _ (by decide), dlookup_dinsert_self]
      norm_num [PAGE_SIZE]
    · rw [pageParams, dlookup_dinsert_self]

/-- Witness for `getPaginated_three_pages_ordered` at `L = List.range 1250`,
`params = []`, `k = 0`. -/
theorem getPaginated_three_pages_ordered_witness :
    (getPaginated (slicedBackend (List.range 1250)) [] 3 =
      some ⟨List.range 1250, [pageParams [] 1, pageParams [] 2, pageParams [] 3], []⟩ ∧
    ∀ p : ℕ, dlookup (pageParams [] p) "ps" = some (.int 500) ∧
             dlookup (pageParams [] p) "p" = some (.int p)) :=
  getPaginated_three_pages_ordered (List.range 1250) [] 0 (by simp)

/-- Once the warning flag is set, the rest of the fetch never extends
the warning log (the `not _warning_emitted` guard). -/
theorem getPaginatedGo_warned_no_new_warnings {α : Type}
    (backend : PyDict → PageResponse α) (params : PyDict) :
    ∀ (fuel page : ℕ) (acc : List α) (reqs : List PyDict) (log : List (ℕ × ℕ))
      (r : FetchResult α),
      getPaginatedGo backend params fuel page acc true reqs log = some r →
      r.warnLog = log := by
  intro fuel
  induction fuel with
  | zero => intro page acc reqs log r h; simp [getPaginatedGo] at h
  | succ n ih =>
      intro page acc reqs log r h
      rw [getPaginatedGo] at h
      have hf : ∀ (P : Prop), (P ∧ true = false) = False := by intro P; simp
      simp only [hf, if_false, Bool.true_or] at h
      split at h
      · injection h with h'
        rw [← h']
      · exact ih _ _ _ _ _ h

/-- **C2 (amended).**  If the total declared on page 1 exceeds the
10 000 threshold, then however many pages the fetch goes on to retrieve,
exactly one warning is emitted over the whole fetch — and it is emitted
on page 1, the first page whose declared total exceeds the threshold
(not at the moment the accumulated count first exceeds the threshold). -/
theorem getPaginated_warns_exactly_once {α : Type}
    (backend : PyDict → PageResponse α) (params : PyDict)
    (fuel : ℕ) (r : FetchResult α) (T : ℕ)
    (hp : (backend (pageParams params 1)).paging = some ⟨some T⟩)
    (hgt : T > PAGINATION_WARNING_THRESHOLD)
    (hr : getPaginated backend params fuel = some r) :
    ∃ c, r.warnLog = [(1, c)] := by
  cases fuel with
  | zero => simp [getPaginated, getPaginatedGo] at hr
  | succ n =>
      rw [getPaginated, getPaginatedGo] at hr
      simp only [hp, Option.bind, Option.getD_some, hgt, if_true, and_true,
        List.nil_append, eq_self_iff_true, true_and] at hr
      split at hr
      · injection hr with h'
        exact ⟨_, by rw [← h']⟩
      · simp only [Bool.false_or, decide_eq_true hgt] at hr
        exact ⟨_, getPaginatedGo_warned_no_new_warnings backend params _ _ _ _ _ _ hr⟩

/-- Witness for `getPaginated_warns_exactly_once` on `c2Backend`. -/
theorem getPaginated_warns_exactly_once_witness :
    ∃ c, (FetchResult.mk [0, 1, 2]
      [[("ps", PyVal.int 500), ("p", PyVal.int 1)],
       [("ps", PyVal.int 500), ("p", PyVal.int 2)]] [(1, 3)] : FetchResult ℕ).warnLog
      = [(1, c)] :=
  getPaginated_warns_exactly_once c2Backend [] 5 _ 10001 rfl (by decide) rfl

/-- **C2, claim as stated is refuted.**  Counterexample to "the warning
is emitted the first time the call's accumulated count exceeds the
threshold": `c2Backend` declares `total = 10001 > 10000`, the fetch
emits its single warning on page 1 at accumulated count 3, and 3 does
not exceed the threshold (the accumulated count never does, yet the
warning is emitted). -/
theorem pagination_warning_timing_cex :
    (getPaginated c2Backend [] 5).map FetchResult.warnLog = some [(1, 3)] ∧
    ¬(3 > PAGINATION_WARNING_THRESHOLD) ∧
    (c2Backend (pageParams [] 1)).paging = some ⟨some 10001⟩ ∧
    10001 > PAGINATION_WARNING_THRESHOLD :=
  ⟨rfl, by decide, rfl, by decide⟩

/-- **C3.**  A page whose results array is empty (including an absent
results key, which `data.get(results_key, [])` turns into the empty
list) terminates the fetch immediately after that page: whatever the
accumulated results, the declared total and the warning state, the loop
returns the accumulator as is and issues no further request beyond the
one for that page. -/
theorem getPaginatedGo_empty_page_stops {α : Type}
    (backend : PyDict → PageResponse α) (params : PyDict) (fuel page : ℕ)
    (acc : List α) (warned : Bool) (reqs : List PyDict) (log : List (ℕ × ℕ))
    (h : ((backend (pageParams params page)).results.getD []) = []) :
    (getPaginatedGo backend params (fuel + 1) page acc warned reqs log).map
      (fun r => (r.results, r.requests)) =
      some (acc, reqs ++ [pageParams params page]) := by
  rw [getPaginatedGo]
  simp [h]

/-- Witness for `getPaginatedGo_empty_page_stops`: a backend whose every
page is empty, mid-fetch (page 7, two accumulated items, declared total
1000000 still far away). -/
theorem getPaginatedGo_empty_page_stops_witness :
    (getPaginatedGo (fun _ => ⟨some [], some ⟨some 1000000⟩⟩ : PyDict → PageResponse ℕ)
        [] (4 + 1) 7 [5, 6] false [] []).map (fun r => (r.results, r.requests)) =
      some ([5, 6], [] ++ [pageParams [] 7]) :=
  getPaginatedGo_empty_page_stops _ [] 4 7 [5, 6] false [] [] rfl

/-! ## Value-normalization theorems -/

/-- **C4.**  For every measure whose extracted value parses as a finite
float `q`: if `q` is a whole number the normalization returns the
integer with that exact value (never a fractional representation), and
if `q` has a fractional part the normalization returns `q` itself,
preserved exactly — membership in `ℤ` decides the branch, not any
rounding. -/
theorem parseValue_whole_or_fractional (raw : PyDict) (q : ℚ)
    (h : pyFloatOf (extractVal raw) = .ok (.rat q)) :
    (∃ n : ℤ, (n : ℚ) = q ∧ parseValue raw = .ok (.int n)) ∨
    ((∀ n : ℤ, (n : ℚ) ≠ q) ∧ parseValue raw = .ok (.num q)) := by
  have hpt : parseTry (extractVal raw) =
      .ok (if q.den = 1 then PyVal.int q.num else PyVal.num q) := by
    simp only [parseTry]
    rw [h]
    rfl
  have hpv : parseValue raw =
      .ok (if q.den = 1 then PyVal.int q.num else PyVal.num q) := by
    rcases hev : extractVal raw with _ | b | n | q' | s | l | d
    · rw [hev] at h; simp [pyFloatOf] at h
    all_goals (rw [hev] at hpt; simp [parseValue, hev, hpt])
  by_cases hd : q.den = 1
  · left
    refine ⟨q.num, ?_, by rw [hpv, if_pos hd]⟩
    exact_mod_cast (Rat.den_eq_one_iff q).mp hd
  · right
    refine ⟨?_, by rw [hpv, if_neg hd]⟩
    intro n hn
    exact hd (by rw [← hn]; exact Rat.den_intCast n)

/-- `float("88.0")` as the unevaluated decimal computation. -/
theorem pyFloatOfString_880_raw : pyFloatOfString "88.0" =
    some (.rat ((digitsVal ['8', '8'] : ℚ) + (digitsVal ['0'] : ℚ) / (10 : ℚ) ^ (1 : ℕ))) :=
  rfl

/-- `float("88.0") = 88` in the model. -/
theorem pyFloatOfString_880 : pyFloatOfString "88.0" = some (.rat 88) := by
  have d1 : digitsVal ['8', '8'] = 88 := rfl
  have d2 : digitsVal ['0'] = 0 := rfl
  rw [pyFloatOfString_880_raw, d1, d2]
  norm_num

/-- The measure `{"value": "88.0"}` parses to the finite float 88. -/
theorem measure880_parses : pyFloatOf (extractVal [("value", PyVal.str "88.0")]) =
    .ok (.rat 88) := by
  rw [show extractVal [("value", PyVal.str "88.0")] = PyVal.str "88.0" from rfl]
  simp [pyFloatOf, pyFloatOfString_880]

/-- Witness for `parseValue_whole_or_fractional` at the spec's own
example `{"value": "88.0"}`. -/
theorem parseValue_whole_or_fractional_witness :
    pyFloatOf (extractVal [("value", PyVal.str "88.0")]) = .ok (.rat 88) ∧
    ((∃ n : ℤ, (n : ℚ) = 88 ∧ parseValue [("value", PyVal.str "88.0")] = .ok (.int n)) ∨
     ((∀ n : ℤ, (n : ℚ) ≠ 88) ∧ parseValue [("value", PyVal.str "88.0")] = .ok (.num 88))) :=
  ⟨measure880_parses,
   parseValue_whole_or_fractional [("value", PyVal.str "88.0")] 88 measure880_parses⟩

/-- **C5 (the code violates the claim).**  `_parse_value` is *not*
exception-free: on the measure `{"value": "inf"}` the string parses as a
float (`float("inf")` succeeds), so the lenient string fallback is not
taken, and the subsequent `int(f)` in `f == int(f)` raises
`OverflowError`, which the `except (ValueError, TypeError)` clause does
not catch. -/
theorem parseValue_inf_raises_overflow :
    parseValue [("value", PyVal.str "inf")] = .error .overflowError ∧
    pyFloatOfString "inf" = some .inf :=
  ⟨rfl, rfl⟩

/-- A dict whose keys strip without collision is rebuilt as the plain
key-rewritten list. -/
theorem stripNewPrefix_eq_map (d : PyDict)
    (h : (d.map (fun p => stripKey p.1)).Nodup) :
    stripNewPrefix d = d.map (fun p => (stripKey p.1, p.2)) := by
  rw [stripNewPrefix, dictLit_eq_self]
  simpa [List.map_map, Function.comp] using h

/-- **C6 (amended).**  On a mapping with unique keys, `_strip_new_prefix`
is the identity when no key carries the `"new_"` prefix; and provided
stripping introduces no key collision, every prefixed key `K` comes out
as `K[4:]` bound to `K`'s original value while unprefixed keys pass
through unchanged. -/
theorem stripNewPrefix_spec (d : PyDict) (hnd : (keys d).Nodup) :
    ((∀ k ∈ keys d, ¬strStartsWith k "new_") → stripNewPrefix d = d) ∧
    ((d.map (fun p => stripKey p.1)).Nodup →
      ∀ k v, (k, v) ∈ d →
        (strStartsWith k "new_" → dlookup (stripNewPrefix d) (strDrop k 4) = some v) ∧
        (¬strStartsWith k "new_" → dlookup (stripNewPrefix d) k = some v)) := by
  constructor
  · intro hno
    have hmap : ∀ p ∈ d, (fun p : String × PyVal => (stripKey p.1, p.2)) p = id p := by
      intro p hp
      have hnp : ¬strStartsWith p.1 "new_" := hno p.1 (List.mem_map_of_mem Prod.fst hp)
      simp [stripKey, hnp]
    rw [stripNewPrefix, List.map_congr_left hmap, List.map_id]
    exact dictLit_eq_self d hnd
  · intro h k v hmem
    have he := stripNewPrefix_eq_map d h
    have hkeys : (keys (d.map (fun p => (stripKey p.1, p.2)))).Nodup := by
      simpa [keys, List.map_map, Function.comp] using h
    constructor
    · intro hpre
      have hm : (strDrop k 4, v) ∈ d.map (fun p => (stripKey p.1, p.2)) := by
        have hm0 : ((fun p : String × PyVal => (stripKey p.1, p.2)) (k, v)) ∈
            d.map (fun p => (stripKey p.1, p.2)) := List.mem_map_of_mem _ hmem
        simpa [stripKey, hpre] using hm0
      rw [he]
      exact dlookup_eq_of_mem _ _ _ hkeys hm
    · intro hpre
      have hm : (k, v) ∈ d.map (fun p => (stripKey p.1, p.2)) := by
        have hm0 : ((fun p : String × PyVal => (stripKey p.1, p.2)) (k, v)) ∈
            d.map (fun p => (stripKey p.1, p.2)) := List.mem_map_of_mem _ hmem
        simpa [stripKey, hpre] using hm0
      rw [he]
      exact dlookup_eq_of_mem _ _ _ hkeys hm

/-- Witness for `stripNewPrefix_spec` on
`{"new_coverage": 1, "other": 2}`. -/
theorem stripNewPrefix_spec_witness :
    (keys [("new_coverage", PyVal.int 1), ("other", PyVal.int 2)]).Nodup ∧
    dlookup (stripNewPrefix [("new_coverage", PyVal.int 1), ("other", PyVal.int 2)])
      (strDrop "new_coverage" 4) = some (PyVal.int 1) ∧
    dlookup (stripNewPrefix [("new_coverage", PyVal.int 1), ("other", PyVal.int 2)])
      "other" = some (PyVal.int 2) := by
  have h := stripNewPrefix_spec [("new_coverage", PyVal.int 1), ("other", PyVal.int 2)]
    (by decide)
  refine ⟨by decide, ?_, ?_⟩
  · exact (h.2 (by decide) "new_coverage" (PyVal.int 1) (by simp) |>.1) (by decide)
  · exact (h.2 (by decide) "other" (PyVal.int 2) (by simp) |>.2) (by decide)

/-- **C6, claim as stated is refuted.**  On the legitimate mapping
`{"new_x": 1, "x": 2}` (unique keys), the key `"new_x"` carries the
prefix, yet the output binds `"x"` to 2 — the value of the colliding
unprefixed key, inserted later in the comprehension — not to 1, the
original value of `"new_x"`. -/
theorem stripNewPrefix_collision_cex :
    (keys [("new_x", PyVal.int 1), ("x", PyVal.int 2)]).Nodup ∧
    strStartsWith "new_x" "new_" = true ∧
    strDrop "new_x" 4 = "x" ∧
    stripNewPrefix [("new_x", PyVal.int 1), ("x", PyVal.int 2)] = [("x", PyVal.int 2)] ∧
    dlookup (stripNewPrefix [("new_x", PyVal.int 1), ("x", PyVal.int 2)]) "x" =
      some (PyVal.int 2) ∧
    PyVal.int 2 ≠ PyVal.int 1 :=
  ⟨by decide, rfl, rfl, rfl, rfl, by simp⟩

/-! ## Coverage-report theorems -/

/-- A metric-key section with distinct keys is just the key/value pair
list. -/
theorem sectionOf_eq_pairs (ks : List String) (m : PyDict) (h : ks.Nodup) :
    sectionOf ks m = ks.map (fun k => (k, pyGet m k)) := by
  rw [sectionOf, dictLit_eq_self]
  simp only [List.map_map, Function.comp_def]
  simpa using h

theorem keys_sectionOf (ks : List String) (m : PyDict) (h : ks.Nodup) :
    keys (sectionOf ks m) = ks := by
  rw [sectionOf_eq_pairs ks m h]
  simp [keys, List.map_map, Function.comp_def]

theorem hasKey_of_mem_keys (d : PyDict) (k : String) (h : k ∈ keys d) :
    hasKey d k = true := by
  induction d with
  | nil => simp [keys] at h
  | cons p rest ih =>
      obtain ⟨k', v'⟩ := p
      by_cases he : k' = k
      · simp [hasKey, dlookup, he]
      · simp only [keys, List.map_cons, List.mem_cons] at h
        rcases h with h | h
        · exact absurd h.symm he
        · simpa [hasKey, dlookup, he] using ih h

/-- Whatever the measured values, the `new_code` section of a coverage
report carries exactly the prefix-stripped new-code metric names. -/
theorem keys_newCodeSection (m : PyDict) :
    keys (stripNewPrefix (sectionOf NEW_CODE_METRICS m)) = NEW_CODE_METRICS.map stripKey := by
  have hnd : NEW_CODE_METRICS.Nodup := by decide
  have hpairs := sectionOf_eq_pairs NEW_CODE_METRICS m hnd
  have hnd2 : ((sectionOf NEW_CODE_METRICS m).map (fun p => stripKey p.1)).Nodup := by
    rw [hpairs]
    simp only [List.map_map, Function.comp_def]
    decide
  rw [stripNewPrefix_eq_map _ hnd2, hpairs]
  simp [keys, List.map_map, Function.comp_def]

/-- **C7.**  For every backend response: a PR coverage report never
contains a `metrics` key at all, and its `new_code` section carries
every declared new-code metric name prefix-stripped (a key is present
even when the value is absent); a branch coverage report always carries
both a `metrics` and a `new_code` key, the former covering every
declared current-code metric name and the latter every prefix-stripped
new-code metric name. -/
theorem coverage_report_shapes (data : PyDict) (pk br pr gen : String) :
    (∀ r, getPrCoverage data pk pr gen = .ok r →
      hasKey r "metrics" = false ∧
      ∃ nc, dlookup r "new_code" = some (.dict nc) ∧
        keys nc = NEW_CODE_METRICS.map stripKey ∧
        ∀ k ∈ NEW_CODE_METRICS, hasKey nc (strDrop k 4) = true) ∧
    (∀ r, getCoverage data pk br gen = .ok r →
      ∃ mc nc, dlookup r "metrics" = some (.dict mc) ∧
        dlookup r "new_code" = some (.dict nc) ∧
        keys mc = BRANCH_METRICS ∧ keys nc = NEW_CODE_METRICS.map stripKey) := by
  constructor
  · intro r hr
    rw [getPrCoverage] at hr
    rcases h1 : componentMeasures data with e | ms <;> rw [h1] at hr <;>
      simp only [bind, Bind.bind, Except.bind, Functor.map, Except.map,
        pure, Except.pure] at hr
    · exact Except.noConfusion hr
    rcases h2 : measuresToDict ms with e | measures <;> rw [h2] at hr <;>
      simp only [bind, Bind.bind, Except.bind, Functor.map, Except.map,
        pure, Except.pure, Except.ok.injEq] at hr
    · exact Except.noConfusion hr
    subst hr
    have hlit := dictLit_eq_self
      [("report_type", PyVal.str "pr_coverage"), ("project_key", PyVal.str pk),
       ("pull_request", PyVal.str pr), ("generated_at", PyVal.str gen),
       ("new_code", PyVal.dict (stripNewPrefix (sectionOf NEW_CODE_METRICS measures)))]
      (by simp only [List.map_cons, List.map_nil]; decide)
    rw [hlit]
    refine ⟨by simp [hasKey, dlookup], ?_⟩
    refine ⟨_, by simp [dlookup], keys_newCodeSection measures, ?_⟩
    intro k hk
    apply hasKey_of_mem_keys
    rw [keys_newCodeSection measures]
    fin_cases hk <;> decide
  · intro r hr
    rw [getCoverage] at hr
    rcases h1 : componentMeasures data with e | ms <;> rw [h1] at hr <;>
      simp only [bind, Bind.bind, Except.bind, Functor.map, Except.map,
        pure, Except.pure] at hr
    · exact Except.noConfusion hr
    rcases h2 : measuresToDict ms with e | measures <;> rw [h2] at hr <;>
      simp only [bind, Bind.bind, Except.bind, Functor.map, Except.map,
        pure, Except.pure, Except.ok.injEq] at hr
    · exact Except.noConfusion hr
    subst hr
    have hlit := dictLit_eq_self
      [("report_type", PyVal.str "coverage"), ("project_key", PyVal.str pk),
       ("branch", PyVal.str br), ("generated_at", PyVal.str gen),
       ("metrics", PyVal.dict (sectionOf BRANCH_METRICS measures)),
       ("new_code", PyVal.dict (stripNewPrefix (sectionOf NEW_CODE_METRICS measures)))]
      (by simp only [List.map_cons, List.map_nil]; decide)
    rw [hlit]
    exact ⟨_, _, by simp [dlookup], by simp [dlookup],
      keys_sectionOf BRANCH_METRICS measures (by decide), keys_newCodeSection measures⟩

/-- Witness for `coverage_report_shapes` on the empty response (all
metric values absent): both reports succeed and have the claimed
shapes. -/
theorem coverage_report_shapes_witness :
    (hasKey [("report_type", PyVal.str "pr_coverage"), ("project_key", PyVal.str "proj"),
       ("pull_request", PyVal.str "42"), ("generated_at", PyVal.str "t"),
       ("new_code", PyVal.dict [("coverage", PyVal.none), ("line_coverage", PyVal.none),
         ("branch_coverage", PyVal.none), ("lines_to_cover", PyVal.none),
         ("uncovered_lines", PyVal.none), ("uncovered_conditions", PyVal.none),
         ("conditions_to_cover", PyVal.none)])] "metrics" = false ∧
     ∃ nc, dlookup [("report_type", PyVal.str "pr_coverage"), ("project_key", PyVal.str "proj"),
       ("pull_request", PyVal.str "42"), ("generated_at", PyVal.str "t"),
       ("new_code", PyVal.dict [("coverage", PyVal.none), ("line_coverage", PyVal.none),
         ("branch_coverage", PyVal.none), ("lines_to_cover", PyVal.none),
         ("uncovered_lines", PyVal.none), ("uncovered_conditions", PyVal.none),
         ("conditions_to_cover", PyVal.none)])] "new_code" = some (.dict nc) ∧
       keys nc = NEW_CODE_METRICS.map stripKey ∧
       ∀ k ∈ NEW_CODE_METRICS, hasKey nc (strDrop k 4) = true) ∧
    (∃ mc nc, dlookup [("report_type", PyVal.str "coverage"), ("project_key", PyVal.str "proj"),
       ("branch", PyVal.str "main"), ("generated_at", PyVal.str "t"),
       ("metrics", PyVal.dict [("coverage", PyVal.none), ("line_coverage", PyVal.none),
         ("branch_coverage", PyVal.none), ("lines_to_cover", PyVal.none),
         ("uncovered_lines", PyVal.none), ("uncovered_conditions", PyVal.none),
         ("conditions_to_cover", PyVal.none)]),
       ("new_code", PyVal.dict [("coverage", PyVal.none), ("line_coverage", PyVal.none),
         ("branch_coverage", PyVal.none), ("lines_to_cover", PyVal.none),
         ("uncovered_lines", PyVal.none), ("uncovered_conditions", PyVal.none),
         ("conditions_to_cover", PyVal.none)])] "metrics" = some (.dict mc) ∧
       dlookup [("report_type", PyVal.str "coverage"), ("project_key", PyVal.str "proj"),
       ("branch", PyVal.str "main"), ("generated_at", PyVal.str "t"),
       ("metrics", PyVal.dict [("coverage", PyVal.none), ("line_coverage", PyVal.none),
         ("branch_coverage", PyVal.none), ("lines_to_cover", PyVal.none),
         ("uncovered_lines", PyVal.none), ("uncovered_conditions", PyVal.none),
         ("conditions_to_cover", PyVal.none)]),
       ("new_code", PyVal.dict [("coverage", PyVal.none), ("line_coverage", PyVal.none),
         ("branch_coverage", PyVal.none), ("lines_to_cover", PyVal.none),
         ("uncovered_lines", PyVal.none), ("uncovered_conditions", PyVal.none),
         ("conditions_to_cover", PyVal.none)])] "new_code" = some (.dict nc) ∧
       keys mc = BRANCH_METRICS ∧ keys nc = NEW_CODE_METRICS.map stripKey) :=
  ⟨(coverage_report_shapes [] "proj" "main" "42" "t").1 _ rfl,
   (coverage_report_shapes [] "proj" "main" "42" "t").2 _ rfl⟩

/-! ## Issue-report theorems -/

theorem hasKey_eq_false_of_not_mem (d : PyDict) (k : String) (h : k ∉ keys d) :
    hasKey d k = false := by
  induction d with
  | nil => simp [hasKey, dlookup]
  | cons p rest ih =>
      obtain ⟨k', v'⟩ := p
      simp only [keys, List.map_cons, List.mem_cons] at h
      push_neg at h
      simpa [hasKey, dlookup, Ne.symm h.1] using ih h.2

/-- An extracted issue is the fixed field list paired with the raw
values. -/
theorem extractIssue_eq_pairs (raw : PyDict) :
    extractIssue raw = ISSUE_FIELDS.map (fun f => (f, pyGet raw f)) := by
  rw [extractIssue, dictLit_eq_self]
  simp only [List.map_map, Function.comp_def]
  decide

/-- The value bound last in a dict display wins the lookup. -/
theorem dlookup_dictLit_last (ps : List (String × PyVal)) (k : String) (v : PyVal) :
    dlookup (dictLit (ps ++ [(k, v)])) k = some v := by
  rw [dictLit, List.foldl_append]
  simp [dlookup_dinsert_self]

/-- **C8.**  Every projected issue record carries exactly the fixed
ordered field set (`key`, `rule`, `severity`, `type`, `component`,
`line`, `message`, `effort`, `status`, `assignee`, `tags`,
`creationDate`): each fixed field is present and bound to the upstream
value (`None` when absent upstream), any other upstream field is
dropped; and the `issues` list of every built report (PR / new / all
issues all go through `_build_report`) consists exactly of the projected
records. -/
theorem issue_projection_fixed_fields :
    (∀ raw : PyDict,
      keys (extractIssue raw) = ISSUE_FIELDS ∧
      (∀ f ∈ ISSUE_FIELDS, dlookup (extractIssue raw) f = some (pyGet raw f)) ∧
      (∀ g, g ∉ ISSUE_FIELDS → hasKey (extractIssue raw) g = false)) ∧
    (∀ (rt pk gen : String) (extra : PyDict) (issues : List PyDict) (l : List PyVal),
      dlookup (buildReport rt pk gen extra issues) "issues" = some (.list l) →
      l = issues.map (fun i => PyVal.dict (extractIssue i))) := by
  constructor
  · intro raw
    have he := extractIssue_eq_pairs raw
    have hkeys : keys (extractIssue raw) = ISSUE_FIELDS := by
      rw [he]
      simp [keys, List.map_map, Function.comp_def]
    refine ⟨hkeys, ?_, ?_⟩
    · intro f hf
      rw [he]
      apply dlookup_eq_of_mem
      · rw [← he]; rw [hkeys]; decide
      · exact List.mem_map_of_mem _ hf
    · intro g hg
      apply hasKey_eq_false_of_not_mem
      rw [hkeys]
      exact hg
  · intro rt pk gen extra issues l hl
    rw [buildReport] at hl
    have ha : [("report_type", PyVal.str rt), ("project_key", PyVal.str pk),
        ("generated_at", PyVal.str gen)] ++ extra ++
        [("summary", PyVal.dict (buildSummary (issues.map extractIssue))),
         ("issues", PyVal.list ((issues.map extractIssue).map PyVal.dict))] =
        (([("report_type", PyVal.str rt), ("project_key", PyVal.str pk),
          ("generated_at", PyVal.str gen)] ++ extra ++
          [("summary", PyVal.dict (buildSummary (issues.map extractIssue)))]) ++
         [("issues", PyVal.list ((issues.map extractIssue).map PyVal.dict))]) := by
      simp
    rw [ha, dlookup_dictLit_last] at hl
    injection hl with hl
    injection hl with hl
    rw [← hl]
    simp [List.map_map, Function.comp_def]

/-- Witness for `issue_projection_fixed_fields` on a raw issue with one
fixed field present and one unexpected extra field. -/
theorem issue_projection_fixed_fields_witness :
    keys (extractIssue [("key", PyVal.str "k1"), ("weird", PyVal.int 9)]) = ISSUE_FIELDS ∧
    dlookup (extractIssue [("key", PyVal.str "k1"), ("weird", PyVal.int 9)]) "key" =
      some (pyGet [("key", PyVal.str "k1"), ("weird", PyVal.int 9)] "key") ∧
    hasKey (extractIssue [("key", PyVal.str "k1"), ("weird", PyVal.int 9)]) "weird" = false ∧
    [PyVal.dict (extractIssue [("key", PyVal.str "k1"), ("weird", PyVal.int 9)])] =
      [[("key", PyVal.str "k1"), ("weird", PyVal.int 9)]].map
        (fun i => PyVal.dict (extractIssue i)) := by
  have h := issue_projection_fixed_fields
  refine ⟨(h.1 _).1, (h.1 _).2.1 "key" (by decide), (h.1 _).2.2 "weird" (by decide), ?_⟩
  exact h.2 "pr_issues" "proj" "t" [("pull_request", PyVal.str "42")]
    [[("key", PyVal.str "k1"), ("weird", PyVal.int 9)]] _ rfl

/-! ## Transport-wrapper theorems -/

/-- **C9 (amended).**  The error taxonomy of `_request`: a timeout and an
unreachable server raise `NetworkError` (with distinct messages), 401
raises `AuthenticationError` — a kind distinct from `NotFoundError`
(404) and from `NetworkError`, with a message mentioning the token may
be invalid or expired — and any response with status ≥ 400 other than
401/404 raises the generic client error carrying the status code and a
body excerpt of at most 200 characters.  (Non-2xx statuses below 400 —
1xx/3xx — take the success path: `response.ok` is `status < 400`.) -/
theorem request_error_taxonomy (t : ℕ) (baseUrl url body : String) (js : PyVal) (st : ℕ) :
    requestResult t baseUrl url .timeout =
      .error (.networkError (timeoutMessage t url)) ∧
    requestResult t baseUrl url .connectionError =
      .error (.networkError (unreachableMessage baseUrl)) ∧
    (st = 401 → requestResult t baseUrl url (.response st body js) =
      .error (.authenticationError authFailedMessage)) ∧
    (st = 404 → requestResult t baseUrl url (.response st body js) =
      .error (.notFoundError (notFoundMessage url))) ∧
    (400 ≤ st → st ≠ 401 → st ≠ 404 →
      requestResult t baseUrl url (.response st body js) =
        .error (.sonarClientError (unexpectedMessage st url (strTake body 200))) ∧
      (strTake body 200).length ≤ 200) ∧
    (∃ pre post : List Char, authFailedMessage.data = pre ++ "expired".data ++ post) ∧
    (∀ m mm : String, ClientError.authenticationError m ≠ .notFoundError mm) ∧
    (∀ m mm : String, ClientError.authenticationError m ≠ .networkError mm) ∧
    (∀ m mm : String, ClientError.notFoundError m ≠ .networkError mm) := by
  refine ⟨rfl, rfl, ?_, ?_, ?_, ?_, ?_, ?_, ?_⟩
  · intro h; subst h; rfl
  · intro h; subst h; rfl
  · intro h1 h2 h3
    constructor
    · simp only [requestResult, if_neg h2, if_neg h3, if_pos (by omega : ¬(st < 400))]
    · simp only [strTake, String.length]
      simp
  · exact ⟨"Authentication failed — check that your token is valid and not ".data,
      ".".data, rfl⟩
  · intro m mm h; exact ClientError.noConfusion h
  · intro m mm h; exact ClientError.noConfusion h
  · intro m mm h; exact ClientError.noConfusion h

/-- Witness for `request_error_taxonomy` at status 500 and status 401. -/
theorem request_error_taxonomy_witness :
    requestResult 30 "B" "U" (.response 500 "boom" PyVal.none) =
      .error (.sonarClientError (unexpectedMessage 500 "U" (strTake "boom" 200))) ∧
    (strTake "boom" 200).length ≤ 200 ∧
    requestResult 30 "B" "U" (.response 401 "" PyVal.none) =
      .error (.authenticationError authFailedMessage) :=
  have h := request_error_taxonomy 30 "B" "U" "boom" PyVal.none 500
  have h401 := request_error_taxonomy 30 "B" "U" "" PyVal.none 401
  ⟨(h.2.2.2.2.1 (by decide) (by decide) (by decide)).1,
   (h.2.2.2.2.1 (by decide) (by decide) (by decide)).2,
   h401.2.2.1 rfl⟩

/-- **C9, claim as stated is refuted.**  A 300 response is not 2xx, is
none of 401/404, and is not a transport failure, yet `_request` raises
nothing and returns the JSON body: `response.ok` in the `requests`
library is `status < 400`, so 1xx/3xx statuses take the success path
instead of raising the generic client error the claim requires for
every non-2xx status. -/
theorem request_3xx_ok_cex :
    requestResult 30 "B" "U" (.response 300 "b" PyVal.none) = .ok PyVal.none ∧
    299 < 300 ∧ 300 ≠ 401 ∧ 300 ≠ 404 :=
  ⟨rfl, by decide, by decide, by decide⟩

/-! ## Uncovered-lines theorems -/

theorem componentMetricGo_no_ve (metric : String) (l : List PyVal) :
    componentMetricGo metric l ≠ .error .valueError := by
  induction l with
  | nil => simp [componentMetricGo]
  | cons m rest ih =>
      rcases m with _ | b | n | q | s | ll | md
      case dict =>
        simp only [componentMetricGo]
        rcases hm : dlookup md "metric" with _ | mv
        · simp
        rcases mv with _ | b | n | q | s | ll | dd <;> try simpa using ih
        by_cases hs : s = metric
        · simp only [if_pos hs]
          rcases hv : dlookup md "value" with _ | v
          · simp
          rcases hf : pyFloatOf v with e | f
          · rcases e <;> simp [hf]
          · rcases f <;> simp [hf]
        · simpa [if_neg hs] using ih
      all_goals simp [componentMetricGo]

theorem componentMetric_no_ve (comp : PyDict) (metric : String) :
    componentMetric comp metric ≠ .error .valueError := by
  rw [componentMetric]
  rcases h : dlookup comp "measures" with _ | v
  · exact componentMetricGo_no_ve metric []
  rcases v <;> simp
  all_goals exact componentMetricGo_no_ve metric _

theorem componentUncoveredCount_no_ve (c : PyVal) :
    componentUncoveredCount c ≠ .error .valueError := by
  rcases c <;> simp [componentUncoveredCount]
  all_goals exact componentMetric_no_ve _ _

theorem filterUncovered_no_ve (l : List PyVal) :
    filterUncovered l ≠ .error .valueError := by
  induction l with
  | nil => simp [filterUncovered]
  | cons c rest ih =>
      rw [filterUncovered]
      rcases hc : componentUncoveredCount c with e | n
      · simpa [Except.bind, bind, Bind.bind] using
          fun h => componentUncoveredCount_no_ve c (hc.trans (by rw [h]))
      rcases hr : filterUncovered rest with e | l'
      · simp only [bind, Bind.bind, Except.bind]
        intro h
        injection h with h
        exact ih (hr.trans (by rw [h]))
      · simp [bind, Bind.bind, Except.bind, pure, Except.pure]

theorem bind_no_ve {α β : Type} (ma : Except PyExc α) (f : α → Except PyExc β)
    (h1 : ma ≠ .error .valueError) (h2 : ∀ a, f a ≠ .error .valueError) :
    ma >>= f ≠ .error .valueError := by
  rcases ma with e | a
  · simpa [bind, Bind.bind, Except.bind] using fun he => h1 (by rw [he])
  · simpa [bind, Bind.bind, Except.bind] using h2 a

theorem uncoveredOfLines_no_ve (l : List PyVal) :
    uncoveredOfLines l ≠ .error .valueError := by
  induction l with
  | nil => simp [uncoveredOfLines]
  | cons ln rest ih =>
      rcases ln with _ | b | n | q | s | ll | ld
      case dict =>
        rw [uncoveredOfLines]
        by_cases hz : (pyEqZero (pyGet ld "utLineHits") || pyEqZero (pyGet ld "lineHits")) = true
        · simp only [hz, if_true]
          rcases hl : dlookup ld "line" with _ | lv
          · simp
          rcases hc : pyGetD ld "code" (.str "") with _ | b | n | q | code | lll | dd <;>
            try simp
          exact bind_no_ve _ _ ih (fun a => by simp [pure, Except.pure])
        · simp only [Bool.not_eq_true] at hz
          simpa [hz] using ih
      all_goals simp [uncoveredOfLines]

theorem fileEntry?_no_ve (cd : PyDict) (keyV : PyVal) (uncovered : List PyDict) :
    fileEntry? cd keyV uncovered ≠ .error .valueError := by
  rw [fileEntry?]
  by_cases hemp : uncovered.isEmpty
  · simp [hemp]
  · simp only [hemp, if_false, Bool.false_eq_true]
    rcases h1 : componentMetric cd "lines_to_cover" with e | ltc
    · simpa using fun he => componentMetric_no_ve cd "lines_to_cover" (h1.trans (by rw [he]))
    rcases h2 : componentMetric cd "uncovered_lines" with e | ulc
    · simpa using fun he => componentMetric_no_ve cd "uncovered_lines" (h2.trans (by rw [he]))
    simp

theorem sourcesOf_no_ve (srcData : PyDict) :
    sourcesOf srcData ≠ .error .valueError := by
  rw [sourcesOf]
  rcases h : dlookup srcData "sources" with _ | sv
  · simp
  · rcases sv <;> simp

theorem uncoveredFilesGo_no_ve (lB : PyDict → PyDict) (loc : PyDict)
    (comps : List PyVal) :
    uncoveredFilesGo lB loc comps ≠ .error .valueError := by
  induction comps with
  | nil => simp [uncoveredFilesGo]
  | cons comp rest ih =>
      rcases comp with _ | b | n | q | s | ll | cd
      case dict =>
        rw [uncoveredFilesGo]
        rcases hk : dlookup cd "key" with _ | kv
        · simp
        simp only []
        rcases hs : sourcesOf (lB (dictLit ([("key", kv)] ++ loc))) with e | rawLines <;>
          simp only [hs]
        · intro h
          injection h with h
          exact sourcesOf_no_ve _ (hs.trans (by rw [h]))
        rcases hu : uncoveredOfLines rawLines with e | uncov <;> simp only [hu]
        · intro h
          injection h with h
          exact uncoveredOfLines_no_ve _ (hu.trans (by rw [h]))
        rcases hfe : fileEntry? cd kv uncov with e | entry? <;> simp only [hfe]
        · intro h
          injection h with h
          exact fileEntry?_no_ve _ _ _ (hfe.trans (by rw [h]))
        rcases hgo : uncoveredFilesGo lB loc rest with e | pr <;> simp only [hgo]
        · intro h
          injection h with h
          exact ih (hgo.trans (by rw [h]))
        rcases pr with ⟨files, reqs⟩
        simp
      all_goals simp [uncoveredFilesGo]

theorem sumIntField_no_ve (files : List PyDict) (field : String) :
    sumIntField files field ≠ .error .valueError := by
  rw [sumIntField]
  generalize (0 : ℤ) = a
  induction files generalizing a with
  | nil => simp [List.foldlM, pure, Except.pure]
  | cons f rest ih =>
      simp only [List.foldlM]
      rcases hf : dlookup f field with _ | v
      · simp [bind, Bind.bind, Except.bind]
      · rcases v with _ | b | n | q | s | ll | dd
        case int =>
          simp only [bind, Bind.bind, Except.bind]
          exact fun h => ih _ h
        all_goals simp [bind, Bind.bind, Except.bind]

theorem getPaginatedGo_requests {α : Type} (backend : PyDict → PageResponse α)
    (params : PyDict) :
    ∀ (fuel page : ℕ) (acc : List α) (warned : Bool) (reqs : List PyDict)
      (log : List (ℕ × ℕ)) (r : FetchResult α),
      getPaginatedGo backend params fuel page acc warned reqs log = some r →
      ∀ q ∈ r.requests, q ∈ reqs ∨ ∃ pg, q = pageParams params pg := by
  intro fuel
  induction fuel with
  | zero => intro page acc warned reqs log r h; simp [getPaginatedGo] at h
  | succ n ih =>
      intro page acc warned reqs log r h
      rw [getPaginatedGo] at h
      split at h
      · injection h with h
        subst h
        intro q hq
        rcases List.mem_append.mp hq with h1 | h1
        · exact Or.inl h1
        · simp only [List.mem_singleton] at h1
          exact Or.inr ⟨page, h1⟩
      · intro q hq
        rcases ih _ _ _ _ _ _ h q hq with h1 | h1
        · rcases List.mem_append.mp h1 with h2 | h2
          · exact Or.inl h2
          · simp only [List.mem_singleton] at h2
            exact Or.inr ⟨page, h2⟩
        · exact Or.inr h1

theorem uncoveredFilesGo_requests (lB : PyDict → PyDict) (loc : PyDict) :
    ∀ (comps : List PyVal) (files reqs : List PyDict),
      uncoveredFilesGo lB loc comps = .ok (files, reqs) →
      ∀ q ∈ reqs, ∃ kv, q = dictLit ([("key", kv)] ++ loc) := by
  intro comps
  induction comps with
  | nil =>
      intro files reqs h q hq
      rw [uncoveredFilesGo] at h
      simp only [Except.ok.injEq, Prod.mk.injEq] at h
      obtain ⟨h1, h2⟩ := h
      rw [← h2] at hq
      simp at hq
  | cons comp rest ih =>
      intro files reqs h q hq
      rcases comp with _ | bv | n | qq | s | ll | cd
      case dict =>
        rw [uncoveredFilesGo] at h
        rcases hk : dlookup cd "key" with _ | kv <;> rw [hk] at h
        · simp at h
        simp only [] at h
        rcases hs : sourcesOf (lB (dictLit ([("key", kv)] ++ loc))) with e | rawLines <;>
          rw [hs] at h
        · simp at h
        simp only [] at h
        rcases hu : uncoveredOfLines rawLines with e | uncov <;> rw [hu] at h
        · simp at h
        simp only [] at h
        rcases hfe : fileEntry? cd kv uncov with e | entry? <;> rw [hfe] at h
        · simp at h
        simp only [] at h
        rcases hgo : uncoveredFilesGo lB loc rest with e | pr <;> rw [hgo] at h
        · simp at h
        simp only [] at h
        rcases pr with ⟨files2, reqs2⟩
        simp only [Except.ok.injEq, Prod.mk.injEq] at h
        obtain ⟨h1, h2⟩ := h
        rw [← h2] at hq
        rcases List.mem_cons.mp hq with h3 | h3
        · exact ⟨kv, h3⟩
        · exact ih _ _ hgo q h3
      all_goals simp [uncoveredFilesGo] at h

/-- **C10.**  When `get_uncovered_lines` is called with both a branch
and a non-empty `pr_id`, no caller-contract error is raised and the
pull-request location silently takes precedence: the result does not
depend on the branch argument at all, every network request — each
paginated component-tree query and each per-file source-lines query —
carries the `pullRequest` parameter and no `branch` parameter, and the
report carries a `pull_request` key and no `branch` key. -/
theorem getUncoveredLines_pr_precedence (tB : PyDict → PageResponse PyVal) (lB : PyDict → PyDict)
    (fuel : ℕ) (pk b p gen : String) (hp : p ≠ "") :
    (∀ b₂ : Option String,
      getUncoveredLines tB lB fuel pk (some b) (some p) gen =
        getUncoveredLines tB lB fuel pk b₂ (some p) gen) ∧
    getUncoveredLines tB lB fuel pk (some b) (some p) gen ≠ .error .valueError ∧
    (∀ r reqs, getUncoveredLines tB lB fuel pk (some b) (some p) gen = .ok (r, reqs) →
      (∀ q ∈ reqs, dlookup q "pullRequest" = some (.str p) ∧
        dlookup q "branch" = Option.none) ∧
      dlookup r "pull_request" = some (.str p) ∧ hasKey r "branch" = false) := by
  have htp : truthy (some p) = true := by simp [truthy, hp]
  have hso : strOf (some p) = p := rfl
  have hTPlit : dictLit
      ([("component", PyVal.str pk), ("metricKeys", PyVal.str "lines_to_cover,uncovered_lines"),
        ("qualifiers", PyVal.str "FIL"), ("ps", PyVal.int 500)] ++
       [("pullRequest", PyVal.str p)]) =
      [("component", PyVal.str pk), ("metricKeys", PyVal.str "lines_to_cover,uncovered_lines"),
       ("qualifiers", PyVal.str "FIL"), ("ps", PyVal.int 500), ("pullRequest", PyVal.str p)] := by
    apply dictLit_eq_self
    simp only [List.append_eq, List.map_cons, List.map_append, List.map_nil]
    decide
  refine ⟨?_, ?_, ?_⟩
  · intro b₂
    simp only [getUncoveredLines, htp, hso, Bool.not_true, Bool.and_false,
      Bool.false_eq_true, if_false, if_true]
  · simp only [getUncoveredLines, htp, hso, Bool.not_true, Bool.and_false,
      Bool.false_eq_true, if_false, if_true]
    rcases hf : getPaginated tB (dictLit
      ([("component", PyVal.str pk), ("metricKeys", PyVal.str "lines_to_cover,uncovered_lines"),
        ("qualifiers", PyVal.str "FIL"), ("ps", PyVal.int 500)] ++
       [("pullRequest", PyVal.str p)])) fuel with _ | fetched
    · simp
    simp only []
    apply bind_no_ve _ _ (filterUncovered_no_ve _)
    intro files
    apply bind_no_ve _ _ (uncoveredFilesGo_no_ve _ _ _)
    intro pr
    apply bind_no_ve _ _ (sumIntField_no_ve _ _)
    intro t1
    apply bind_no_ve _ _ (sumIntField_no_ve _ _)
    intro t2
    simp [pure, Except.pure]
  · intro r reqs hr
    simp only [getUncoveredLines, htp, hso, Bool.not_true, Bool.and_false,
      Bool.false_eq_true, if_false, if_true] at hr
    rcases hf : getPaginated tB (dictLit
      ([("component", PyVal.str pk), ("metricKeys", PyVal.str "lines_to_cover,uncovered_lines"),
        ("qualifiers", PyVal.str "FIL"), ("ps", PyVal.int 500)] ++
       [("pullRequest", PyVal.str p)])) fuel with _ | fetched <;> rw [hf] at hr
    · simp at hr
    simp only [] at hr
    rcases hfl : filterUncovered fetched.results with e | files <;> rw [hfl] at hr
    · simp [bind, Bind.bind, Except.bind] at hr
    simp only [bind, Bind.bind, Except.bind] at hr
    rcases hgo : uncoveredFilesGo lB [("pullRequest", PyVal.str p)] files with e | pr <;>
      rw [hgo] at hr
    · simp at hr
    simp only [] at hr
    rcases hs1 : sumIntField pr.1 "lines_to_cover" with e | t1 <;> rw [hs1] at hr
    · simp at hr
    simp only [] at hr
    rcases hs2 : sumIntField pr.1 "uncovered_lines_count" with e | t2 <;> rw [hs2] at hr
    · simp at hr
    simp only [pure, Except.pure, Except.ok.injEq, Prod.mk.injEq] at hr
    obtain ⟨h1, h2⟩ := hr
    constructor
    · intro q hq
      rw [← h2] at hq
      rcases List.mem_append.mp hq with hq1 | hq2
      · rw [getPaginated] at hf
        rcases getPaginatedGo_requests tB _ fuel 1 [] false [] [] fetched hf q hq1 with
          hmem | ⟨pg, hpg⟩
        · simp at hmem
        subst hpg
        constructor
        · rw [pageParams, dlookup_dinsert_ne _ _ _ _ (by decide),
            dlookup_dinsert_ne _ _ _ _ (by decide), hTPlit]
          simp [dlookup]
        · rw [pageParams, dlookup_dinsert_ne _ _ _ _ (by decide),
            dlookup_dinsert_ne _ _ _ _ (by decide), hTPlit]
          simp [dlookup]
      · rcases uncoveredFilesGo_requests lB _ files pr.1 pr.2 hgo q hq2 with ⟨kv, hkv⟩
        subst hkv
        have hlit2 : dictLit ([("key", kv)] ++ [("pullRequest", PyVal.str p)]) =
            [("key", kv), ("pullRequest", PyVal.str p)] := by
          apply dictLit_eq_self
          simp only [List.append_eq, List.map_cons, List.map_append, List.map_nil]
          decide
        rw [hlit2]
        constructor <;> simp [dlookup]
    · rw [← h1]
      have hrpt : dictLit
          [("report_type", PyVal.str "uncovered_lines"), ("project_key", PyVal.str pk),
           ("generated_at", PyVal.str gen),
           ("summary", PyVal.dict (dictLit
             [("files_with_uncovered_lines", PyVal.int (pr.1.length : ℤ)),
              ("total_lines_to_cover", PyVal.int t1),
              ("total_uncovered_lines", PyVal.int t2)])),
           ("files", PyVal.list (pr.1.map PyVal.dict))] =
          [("report_type", PyVal.str "uncovered_lines"), ("project_key", PyVal.str pk),
           ("generated_at", PyVal.str gen),
           ("summary", PyVal.dict (dictLit
             [("files_with_uncovered_lines", PyVal.int (pr.1.length : ℤ)),
              ("total_lines_to_cover", PyVal.int t1),
              ("total_uncovered_lines", PyVal.int t2)])),
           ("files", PyVal.list (pr.1.map PyVal.dict))] := by
        apply dictLit_eq_self
        simp only [List.map_cons, List.map_nil]
        decide
      constructor
      · exact dlookup_dinsert_self _ _ _
      · rw [hasKey, dlookup_dinsert_ne _ _ _ _ (by decide), hrpt]
        simp [dlookup]

/-- Witness for `getUncoveredLines_pr_precedence` on a backend with one
empty page: both supplied, no ValueError, and the branch value is
immaterial. -/
theorem getUncoveredLines_pr_precedence_witness :
    getUncoveredLines (fun _ => ⟨some [], some ⟨some 0⟩⟩) (fun _ => []) 1 "proj"
      (some "main") (some "42") "t" ≠ Except.error PyExc.valueError ∧
    getUncoveredLines (fun _ => ⟨some [], some ⟨some 0⟩⟩) (fun _ => []) 1 "proj"
      (some "main") (some "42") "t" =
      getUncoveredLines (fun _ => ⟨some [], some ⟨some 0⟩⟩) (fun _ => []) 1 "proj"
        (some "other") (some "42") "t" :=
  have h := getUncoveredLines_pr_precedence (fun _ => ⟨some [], some ⟨some 0⟩⟩)
    (fun _ => []) 1 "proj" "main" "42" "t" (by decide)
  ⟨h.2.1, h.1 (some "other")⟩

end SonarReport
